import Mathlib

/-!
# Payment form handler (`app/static/js/payment.js`)

A shallow embedding of the browser-side payment form script: the phone mask
applied on every `input` event, the form validator with its two regular
expressions, and the synchronous part of the `submit` handler.

JavaScript strings are modelled as `List Char`.  Every character class the
script uses (`\d`, `\D`, `\s`, `[^\s@]`) treats the two halves of a surrogate
pair alike (both are non-digits, non-spaces, and different from `@`), and the
script only takes the length of digit-only strings, so working with Unicode
scalar values instead of UTF-16 code units does not change any result below.
-/

namespace Payment

/-- A JavaScript string. -/
abbrev JsString := List Char

/-! ## Character classes -/

/-- The class `\d` (no `u`/`i` flags): the ten ASCII decimal digits. -/
def isDigit (c : Char) : Bool :=
  decide (48 ≤ c.toNat) && decide (c.toNat ≤ 57)

/-- The class `\s`: ECMAScript WhiteSpace and LineTerminator code points.
`String.prototype.trim` strips exactly the same set. -/
def isSpace (c : Char) : Bool :=
  decide (c.toNat = 0x09) || decide (c.toNat = 0x0A) || decide (c.toNat = 0x0B) ||
  decide (c.toNat = 0x0C) || decide (c.toNat = 0x0D) || decide (c.toNat = 0x20) ||
  decide (c.toNat = 0xA0) || decide (c.toNat = 0x1680) ||
  (decide (0x2000 ≤ c.toNat) && decide (c.toNat ≤ 0x200A)) ||
  decide (c.toNat = 0x2028) || decide (c.toNat = 0x2029) || decide (c.toNat = 0x202F) ||
  decide (c.toNat = 0x205F) || decide (c.toNat = 0x3000) || decide (c.toNat = 0xFEFF)

/-! ## String primitives -/

/-- The call `s.substring(start)`: the index is clamped to the length. -/
def substringFrom (s : JsString) (start : Nat) : JsString :=
  s.drop (min start s.length)

/-- The call `s.substring(start, end)`: both indices are clamped to the length
and swapped when `start > end`. -/
def substring (s : JsString) (start stop : Nat) : JsString :=
  let a := min start s.length
  let b := min stop s.length
  (s.drop (min a b)).take (max a b - min a b)

/-- The call `s.startsWith(t)`. -/
def startsWith (s t : JsString) : Bool :=
  t.isPrefixOf s

/-- The call `s.replace(/\D/g, '')`: every non-digit is deleted. -/
def replaceNonDigits (s : JsString) : JsString :=
  s.filter isDigit

/-- The call `s.trim()`. -/
def trim (s : JsString) : JsString :=
  ((s.dropWhile isSpace).reverse.dropWhile isSpace).reverse

/-! ## Phone mask (`input` and `focus` listeners, lines 13-40) -/

/-- The `input` listener of the phone field: maps the raw field value to the
value written back to the field. -/
def phoneInputHandler (raw : JsString) : JsString :=
  let value := replaceNonDigits raw
  let value := if startsWith value ['7'] then substringFrom value 1 else value
  let value :=
    if value.length > 0 then
      if value.length ≤ 3 then
        "+7 (".toList ++ value
      else if value.length ≤ 6 then
        "+7 (".toList ++ substring value 0 3 ++ ") ".toList ++ substringFrom value 3
      else if value.length ≤ 8 then
        "+7 (".toList ++ substring value 0 3 ++ ") ".toList ++ substring value 3 6 ++
          "-".toList ++ substringFrom value 6
      else
        "+7 (".toList ++ substring value 0 3 ++ ") ".toList ++ substring value 3 6 ++
          "-".toList ++ substring value 6 8 ++ "-".toList ++ substring value 8 10
    else value
  value

/-- The `focus` listener of the phone field: an empty field is pre-filled. -/
def phoneFocusHandler (current : JsString) : JsString :=
  if current.isEmpty then "+7 (".toList else current

/-- The digit buffer of a raw value, in the words of the specification: the
decimal digits of the raw value in order, with one leading `7` removed if
present. -/
def digitBuffer (raw : JsString) : JsString :=
  match raw.filter isDigit with
  | [] => []
  | c :: rest => if c = '7' then rest else c :: rest

/-- The slice `d[a..b]` of the specification's notation. -/
def slice (d : JsString) (a b : Nat) : JsString :=
  (d.drop a).take (b - a)

/-- The slice `d[a..]` of the specification's notation. -/
def sliceFrom (d : JsString) (a : Nat) : JsString :=
  d.drop a

/-- Lines 20-30 of the listener as a function of the digit buffer, with the
`substring` calls written as slices. -/
def maskOf (d : JsString) : JsString :=
  if d.length = 0 then []
  else if d.length ≤ 3 then "+7 (".toList ++ d
  else if d.length ≤ 6 then "+7 (".toList ++ slice d 0 3 ++ ") ".toList ++ sliceFrom d 3
  else if d.length ≤ 8 then
    "+7 (".toList ++ slice d 0 3 ++ ") ".toList ++ slice d 3 6 ++ "-".toList ++ sliceFrom d 6
  else
    "+7 (".toList ++ slice d 0 3 ++ ") ".toList ++ slice d 3 6 ++ "-".toList ++ slice d 6 8 ++
      "-".toList ++ slice d 8 10

/-! ## Regular expressions

Both patterns of the script are anchored sequences of single-character atoms,
each carrying at most one quantifier.  `regexTest` is a backtracking matcher
for that fragment; since both patterns start with `^`, end with `$` and carry
no flags, `RegExp.prototype.test` succeeds exactly when the whole string is
matched from index 0. -/

/-- The quantifier of an atom: none, `?`, `+` or `{n}`. -/
inductive Quant where
  | one
  | opt
  | plus
  | times (n : Nat)

/-- A single-character atom together with its quantifier. -/
structure Atom where
  test : Char → Bool
  quant : Quant

/-- Match one character of the class, then continue with `k`. -/
def matchOne (p : Char → Bool) (k : JsString → Bool) : JsString → Bool
  | [] => false
  | c :: s => p c && k s

/-- Greedy `*` with backtracking: take another character or continue with `k`. -/
def matchStar (p : Char → Bool) (k : JsString → Bool) : JsString → Bool
  | [] => k []
  | c :: s => (p c && matchStar p k s) || k (c :: s)

/-- The quantifier `{n}`. -/
def matchTimes (p : Char → Bool) : Nat → (JsString → Bool) → JsString → Bool
  | 0, k => k
  | n + 1, k => matchOne p (matchTimes p n k)

/-- Match one quantified atom, then continue with `k`. -/
def matchAtom (a : Atom) (k : JsString → Bool) : JsString → Bool :=
  match a.quant with
  | Quant.one => matchOne a.test k
  | Quant.opt => fun s => matchOne a.test k s || k s
  | Quant.plus => matchOne a.test (matchStar a.test k)
  | Quant.times n => matchTimes a.test n k

/-- Match a sequence of atoms followed by the end anchor `$`. -/
def matchSeq : List Atom → JsString → Bool
  | [] => fun s => s.isEmpty
  | a :: rest => matchAtom a (matchSeq rest)

/-- The call `re.test(s)` for a pattern `^ atoms $`. -/
def regexTest (re : List Atom) (s : JsString) : Bool :=
  matchSeq re s

/-- A literal character. -/
def lit (c : Char) : Atom := ⟨fun x => x == c, Quant.one⟩

/-- The class `[^\s@]`. -/
def notSpaceAt (c : Char) : Bool :=
  !(isSpace c || c == '@')

/-- The pattern `/^\+7\s?\(\d{3}\)\s?\d{3}-\d{2}-\d{2}$/` (line 127). -/
def phoneRegex : List Atom :=
  [lit '+', lit '7', ⟨isSpace, Quant.opt⟩, lit '(', ⟨isDigit, Quant.times 3⟩, lit ')',
   ⟨isSpace, Quant.opt⟩, ⟨isDigit, Quant.times 3⟩, lit '-', ⟨isDigit, Quant.times 2⟩, lit '-',
   ⟨isDigit, Quant.times 2⟩]

/-- The pattern `/^[^\s@]+@[^\s@]+\.[^\s@]+$/` (line 137). -/
def emailRegex : List Atom :=
  [⟨notSpaceAt, Quant.plus⟩, lit '@', ⟨notSpaceAt, Quant.plus⟩, lit '.', ⟨notSpaceAt, Quant.plus⟩]

/-! ## The page

The script reads field values and the document structure and writes border
colours, `.field-error` nodes, the state of the pay button, notifications,
requests and timers.  Elements and containers are identified by numbers.

Containers may be nested in one another: `parentNode.querySelector('.field-error')`
searches all descendants of the container, so it also finds the error nodes of
the containers nested inside it.  The `.field-error` nodes are the ones
`showFieldError` creates: `appendChild` puts each at the end of its container,
after the other children, so in document order the error nodes of the nested
containers come before the container's own. -/

/-- What the script reads from the document. -/
structure Form where
  /-- The property `field.value` of each element. -/
  value : Nat → JsString
  /-- The property `field.parentNode` of each element. -/
  parentNode : Nat → Nat
  /-- The result of `paymentForm.querySelectorAll('[required]')`, in document order. -/
  required : List Nat
  /-- The result of `document.getElementById('client-phone')`. -/
  phone : Option Nat
  /-- The result of `document.getElementById('client-email')`. -/
  email : Option Nat
  /-- Whether `document.getElementById('pay-button')` found an element. -/
  hasPayButton : Bool
  /-- The containers nested inside each container (its proper descendants), in
  the document order of their closing tags. -/
  nested : Nat → List Nat
  /-- A container is listed once. -/
  nested_nodup : ∀ p, (nested p).Nodup
  /-- A container is not nested inside itself. -/
  nested_irrefl : ∀ p, p ∉ nested p
  /-- The containers around a container form a chain. -/
  nested_chain : ∀ p q c, c ∈ nested p → c ∈ nested q → p = q ∨ p ∈ nested q ∨ q ∈ nested p

/-- A callback scheduled with `setTimeout`. -/
inductive Timer where
  /-- Navigation after 1500 ms (lines 72-78). -/
  | navigate (delay : Nat) (url : JsString)
  /-- Removal of the notification after 5000 ms (lines 226-229). -/
  | dismiss (delay : Nat)

/-- What the script writes. -/
structure View where
  /-- The property `style.borderColor` of each element. -/
  borderColor : Nat → JsString
  /-- The text of the `.field-error` children of each container, in document order. -/
  errorNodes : Nat → List JsString
  /-- The class list of the pay button. -/
  buttonClasses : List JsString
  /-- The property `disabled` of the pay button. -/
  buttonDisabled : Bool
  /-- The `.notification` nodes in the body: text and kind. -/
  notifications : List (JsString × JsString)
  /-- The URLs of the `fetch` calls issued so far. -/
  requests : List JsString
  /-- The timers scheduled so far. -/
  timers : List Timer
  /-- Whether `preventDefault` was called on the current event. -/
  defaultPrevented : Bool

/-- The message of a missing required field. -/
def msgRequired : JsString := "Это поле обязательно для заполнения".toList

/-- The message of a malformed phone number. -/
def msgPhone : JsString := "Введите корректный номер телефона".toList

/-- The message of a malformed email address. -/
def msgEmail : JsString := "Введите корректный email адрес".toList

/-- The containers whose error nodes lie within container `q`, in document
order of these nodes: the containers nested inside `q`, then `q` itself. -/
def Form.within (form : Form) (q : Nat) : List Nat :=
  form.nested q ++ [q]

/-- The error nodes of a list of containers, one container after the other. -/
def errorsIn (nodes : Nat → List JsString) : List Nat → List JsString
  | [] => []
  | c :: cs => nodes c ++ errorsIn nodes cs

/-- The text of the `.field-error` descendants of container `q`, in document
order: what `q.querySelectorAll('.field-error')` would list. -/
def View.fieldErrors (view : View) (form : Form) (q : Nat) : List JsString :=
  errorsIn view.errorNodes (form.within q)

/-- Removal of the first error node found in a list of containers: the node
`querySelector('.field-error')` returns, followed by `remove()`.  Nothing
happens when no container of the list has an error node. -/
def removeFirstError (nodes : Nat → List JsString) : List Nat → Nat → List JsString
  | [] => nodes
  | c :: cs =>
    if (nodes c).isEmpty then removeFirstError nodes cs
    else Function.update nodes c (nodes c).tail

/-- The function `clearFieldError` (lines 168-175): the border is reset and the
first `.field-error` node among the descendants of the parent container is
removed. -/
def clearFieldError (form : Form) (view : View) (field : Nat) : View :=
  { view with
    borderColor := Function.update view.borderColor field "#e5e7eb".toList
    errorNodes := removeFirstError view.errorNodes (form.within (form.parentNode field)) }

/-- The function `showFieldError` (lines 150-163): the previous error is
cleared, the border turns red and a new error node is appended to the parent. -/
def showFieldError (form : Form) (view : View) (field : Nat) (message : JsString) : View :=
  let view := clearFieldError form view field
  { view with
    borderColor := Function.update view.borderColor field "#ef4444".toList
    errorNodes := Function.update view.errorNodes (form.parentNode field)
      (view.errorNodes (form.parentNode field) ++ [message]) }

/-- The function `setLoadingState` (lines 96-106). -/
def setLoadingState (form : Form) (view : View) (loading : Bool) : View :=
  if !form.hasPayButton then view
  else if loading then
    { view with
      buttonClasses :=
        if "loading".toList ∈ view.buttonClasses then view.buttonClasses
        else view.buttonClasses ++ ["loading".toList]
      buttonDisabled := true }
  else
    { view with
      buttonClasses := view.buttonClasses.filter (fun c => c != "loading".toList)
      buttonDisabled := false }

/-- The body of the `forEach` over the required fields (lines 115-122). -/
def requiredStep (form : Form) (st : View × Bool) (field : Nat) : View × Bool :=
  if (trim (form.value field)).isEmpty then
    (showFieldError form st.1 field msgRequired, false)
  else
    (clearFieldError form st.1 field, st.2)

/-- The phone check (lines 125-132). -/
def phoneCheck (form : Form) (st : View × Bool) : View × Bool :=
  match form.phone with
  | some phone =>
    if !(form.value phone).isEmpty then
      if !regexTest phoneRegex (form.value phone) then
        (showFieldError form st.1 phone msgPhone, false)
      else st
    else st
  | none => st

/-- The email check (lines 135-142). -/
def emailCheck (form : Form) (st : View × Bool) : View × Bool :=
  match form.email with
  | some email =>
    if !(form.value email).isEmpty then
      if !regexTest emailRegex (form.value email) then
        (showFieldError form st.1 email msgEmail, false)
      else st
    else st
  | none => st

/-- The function `validateForm` (lines 111-145): the view after validation and
the returned flag `isValid`. -/
def validateForm (form : Form) (view : View) : View × Bool :=
  let st := form.required.foldl (requiredStep form) (view, true)
  let st := phoneCheck form st
  let st := emailCheck form st
  st

/-- The function `showNotification` (lines 194-230). -/
def showNotification (view : View) (message kind : JsString) : View :=
  { view with
    notifications := [(message, kind)]
    timers := view.timers ++ [Timer.dismiss 5000] }

/-- The synchronous part of the `submit` listener (lines 45-64): everything up
to and including the call of `fetch`. -/
def submitHandler (form : Form) (view : View) : View :=
  let view := { view with defaultPrevented := true }
  let view := setLoadingState form view true
  let result := validateForm form view
  if !result.2 then
    setLoadingState form result.1 false
  else
    { result.1 with requests := result.1.requests ++ ["/acquire/payment".toList] }

/-- The response body `{ success, redirect_url?, message? }`. -/
structure Response where
  success : Bool
  redirect_url : Option JsString
  message : Option JsString

/-- The fulfilment callback of the request (lines 66-84).  An empty string
counts as absent in `data.redirect_url` and `data.message`, as both are tested
for truthiness. -/
def onResponse (form : Form) (view : View) (data : Response) : View :=
  if data.success then
    let view := showNotification view "Платеж обрабатывается...".toList "success".toList
    let url :=
      match data.redirect_url with
      | some u => if u.isEmpty then "/acquire/success".toList else u
      | none => "/acquire/success".toList
    { view with timers := view.timers ++ [Timer.navigate 1500 url] }
  else
    let message :=
      match data.message with
      | some m => if m.isEmpty then "Произошла ошибка при обработке платежа".toList else m
      | none => "Произошла ошибка при обработке платежа".toList
    setLoadingState form (showNotification view message "error".toList) false

/-- The rejection callback of the request (lines 85-89). -/
def onFailure (form : Form) (view : View) : View :=
  setLoadingState form
    (showNotification view "Произошла ошибка соединения. Попробуйте еще раз.".toList
      "error".toList) false

/-! ## Declarative reading of the patterns -/

/-- The strings matched by one quantified atom. -/
def AtomLang (a : Atom) (u : JsString) : Prop :=
  match a.quant with
  | Quant.one => ∃ c, u = [c] ∧ a.test c = true
  | Quant.opt => u = [] ∨ ∃ c, u = [c] ∧ a.test c = true
  | Quant.plus => u ≠ [] ∧ ∀ c ∈ u, a.test c = true
  | Quant.times n => u.length = n ∧ ∀ c ∈ u, a.test c = true

/-- The strings matched by `^ atoms $`. -/
def SeqLang : List Atom → JsString → Prop
  | [], s => s = []
  | a :: rest, s => ∃ u v, s = u ++ v ∧ AtomLang a u ∧ SeqLang rest v

/-- A string of exactly `n` decimal digits. -/
def Digits (n : Nat) (u : JsString) : Prop :=
  u.length = n ∧ ∀ c ∈ u, isDigit c = true

/-- Nothing, or a single whitespace character. -/
def OptSpace (u : JsString) : Prop :=
  u = [] ∨ ∃ c, u = [c] ∧ isSpace c = true

/-- The mask of the specification: `+7 (DDD) DDD-DD-DD` with exactly one space
after `+7` and one after `)`. -/
def ExactMask (p : JsString) : Prop :=
  ∃ a b c d, Digits 3 a ∧ Digits 3 b ∧ Digits 2 c ∧ Digits 2 d ∧
    p = "+7 (".toList ++ a ++ ") ".toList ++ b ++ "-".toList ++ c ++ "-".toList ++ d

/-- The mask with each of the two spaces replaced by at most one whitespace
character: `+7` `s₁` `(DDD)` `s₂` `DDD-DD-DD`. -/
def LooseMask (p : JsString) : Prop :=
  ∃ s₁ s₂ a b c d, OptSpace s₁ ∧ OptSpace s₂ ∧ Digits 3 a ∧ Digits 3 b ∧ Digits 2 c ∧
    Digits 2 d ∧
    p = "+7".toList ++ s₁ ++ "(".toList ++ a ++ ")".toList ++ s₂ ++ b ++ "-".toList ++ c ++
      "-".toList ++ d

/-- A string without whitespace and without `@`. -/
def NoSpaceAt (u : JsString) : Prop :=
  ∀ c ∈ u, isSpace c = false ∧ c ≠ '@'

/-- The email shape of the specification: `l@m.t` with non-empty `l`, `m`, `t`
free of whitespace and `@`. -/
def EmailShape (e : JsString) : Prop :=
  ∃ l m t, l ≠ [] ∧ m ≠ [] ∧ t ≠ [] ∧ NoSpaceAt l ∧ NoSpaceAt m ∧ NoSpaceAt t ∧
    e = l ++ "@".toList ++ m ++ ".".toList ++ t

/-! ## Vocabulary of the validation claims -/

/-- The fields `validateForm` looks at. -/
def validatedFields (form : Form) : List Nat :=
  form.required ++ form.phone.toList ++ form.email.toList

/-- No two validated fields share a parent container. -/
def DistinctParents (form : Form) : Prop :=
  ∀ f ∈ validatedFields form, ∀ g ∈ validatedFields form,
    form.parentNode f = form.parentNode g → f = g

instance instDecidableDistinctParents (form : Form) : Decidable (DistinctParents form) :=
  inferInstanceAs (Decidable (∀ f ∈ validatedFields form, ∀ g ∈ validatedFields form,
    form.parentNode f = form.parentNode g → f = g))

/-- No parent container of a validated field is nested inside the parent
container of another. -/
def UnnestedParents (form : Form) : Prop :=
  ∀ f ∈ validatedFields form, ∀ g ∈ validatedFields form,
    form.parentNode g ∉ form.nested (form.parentNode f)

instance instDecidableUnnestedParents (form : Form) : Decidable (UnnestedParents form) :=
  inferInstanceAs (Decidable (∀ f ∈ validatedFields form, ∀ g ∈ validatedFields form,
    form.parentNode g ∉ form.nested (form.parentNode f)))

/-- A field that fails one of the checks: a required field without a
non-whitespace character, a non-empty phone field that does not match the phone
pattern, or a non-empty email field that does not match the email pattern. -/
def Offending (form : Form) (f : Nat) : Prop :=
  (f ∈ form.required ∧ ∀ c ∈ form.value f, isSpace c = true) ∨
  (form.phone = some f ∧ form.value f ≠ [] ∧ regexTest phoneRegex (form.value f) = false) ∨
  (form.email = some f ∧ form.value f ≠ [] ∧ regexTest emailRegex (form.value f) = false)

/-! ## Sample pages -/

/-- A page with a required name field (element 0), a required phone field
(element 1) and an optional email field (element 2), each in a container of its
own (10, 11, 12), none nested in another, and a pay button. -/
def sampleForm (name phone email : JsString) : Form where
  value := fun e => if e = 0 then name else if e = 1 then phone else if e = 2 then email else []
  parentNode := fun e => e + 10
  required := [0, 1]
  phone := some 1
  email := some 2
  hasPayButton := true
  nested := fun _ => []
  nested_nodup := fun _ => List.nodup_nil
  nested_irrefl := fun _ h => absurd h (List.not_mem_nil _)
  nested_chain := fun _ _ _ h _ => absurd h (List.not_mem_nil _)

/-- The page `<form><div><input name required></div><input phone required></form>`:
the name field (element 0) sits in a `div` (container 10) inside the form
(container 20), the phone field (element 1) is a child of the form itself. -/
def nestedForm (name phone : JsString) : Form where
  value := fun e => if e = 0 then name else if e = 1 then phone else []
  parentNode := fun e => if e = 0 then 10 else 20
  required := [0, 1]
  phone := some 1
  email := none
  hasPayButton := true
  nested := fun p => if p = 20 then [10] else []
  nested_nodup := by
    intro p
    by_cases hp : p = 20 <;> simp [hp]
  nested_irrefl := by
    intro p h
    by_cases hp : p = 20
    · subst hp
      simp at h
    · simp [hp] at h
  nested_chain := by
    intro p q c hp hq
    by_cases h1 : p = 20
    · by_cases h2 : q = 20
      · exact Or.inl (h1.trans h2.symm)
      · simp [h2] at hq
    · simp [h1] at hp

/-- A view without error nodes, notifications, requests or timers. -/
def cleanView : View where
  borderColor := fun _ => "#e5e7eb".toList
  errorNodes := fun _ => []
  buttonClasses := ["btn".toList]
  buttonDisabled := false
  notifications := []
  requests := []
  timers := []
  defaultPrevented := false

/-! ## Facts about the string primitives -/

theorem substring_eq_slice (s : JsString) (a b : Nat) (h : a ≤ b) :
    substring s a b = slice s a b := by
  unfold substring slice
  simp only
  rcases Nat.le_total a s.length with ha | ha <;> rcases Nat.le_total b s.length with hb | hb
  · simp [Nat.min_eq_left ha, Nat.min_eq_left hb, Nat.min_eq_left h, Nat.max_eq_right h]
  · rw [Nat.min_eq_left ha, Nat.min_eq_right hb, Nat.min_eq_left ha, Nat.max_eq_right ha,
      List.take_eq_take]
    simp only [List.length_drop]
    omega
  · have : a = b := by omega
    subst this
    simp
  · rw [Nat.min_eq_right ha, Nat.min_eq_right hb]
    simp [List.drop_eq_nil_of_le ha]

theorem substringFrom_eq_sliceFrom (s : JsString) (a : Nat) :
    substringFrom s a = sliceFrom s a := by
  unfold substringFrom sliceFrom
  rcases Nat.le_total a s.length with ha | ha
  · rw [Nat.min_eq_left ha]
  · rw [Nat.min_eq_right ha, List.drop_eq_nil_of_le ha, List.drop_eq_nil_of_le (Nat.le_refl _)]

theorem stripped_eq_digitBuffer (raw : JsString) :
    (if startsWith (replaceNonDigits raw) ['7'] then substringFrom (replaceNonDigits raw) 1
      else replaceNonDigits raw) = digitBuffer raw := by
  unfold digitBuffer replaceNonDigits startsWith
  rw [substringFrom_eq_sliceFrom]
  unfold sliceFrom
  cases List.filter isDigit raw with
  | nil => simp
  | cons c rest =>
    by_cases hc : c = '7'
    · subst hc; simp
    · have : ('7' == c) = false := by
        simp only [beq_eq_false_iff_ne, ne_eq]
        exact fun h => hc h.symm
      simp [List.isPrefixOf, this, hc]

theorem phoneInputHandler_eq_maskOf (raw : JsString) :
    phoneInputHandler raw = maskOf (digitBuffer raw) := by
  unfold phoneInputHandler
  simp only [stripped_eq_digitBuffer]
  generalize digitBuffer raw = d
  unfold maskOf
  simp only [substringFrom_eq_sliceFrom, substring_eq_slice d 0 3 (by decide),
    substring_eq_slice d 3 6 (by decide), substring_eq_slice d 6 8 (by decide),
    substring_eq_slice d 8 10 (by decide)]
  by_cases h0 : d.length = 0
  · have : d = [] := List.length_eq_zero.mp h0
    subst this
    simp
  · have hpos : d.length > 0 := Nat.pos_of_ne_zero h0
    simp [h0, hpos]

/-! ## The matcher computes the declarative reading -/

theorem matchOne_iff (p : Char → Bool) (k : JsString → Bool) (s : JsString) :
    matchOne p k s = true ↔ ∃ c v, s = c :: v ∧ p c = true ∧ k v = true := by
  cases s with
  | nil => simp [matchOne]
  | cons x xs =>
    simp only [matchOne, Bool.and_eq_true, List.cons.injEq]
    constructor
    · rintro ⟨h1, h2⟩
      exact ⟨x, xs, ⟨rfl, rfl⟩, h1, h2⟩
    · rintro ⟨c, v, ⟨rfl, rfl⟩, h1, h2⟩
      exact ⟨h1, h2⟩

theorem matchTimes_iff (p : Char → Bool) (n : Nat) (k : JsString → Bool) (s : JsString) :
    matchTimes p n k s = true ↔
      ∃ u v, s = u ++ v ∧ (u.length = n ∧ ∀ c ∈ u, p c = true) ∧ k v = true := by
  induction n generalizing s with
  | zero =>
    simp only [matchTimes]
    constructor
    · intro h
      exact ⟨[], s, rfl, ⟨rfl, by simp⟩, h⟩
    · rintro ⟨u, v, rfl, ⟨hl, -⟩, hk⟩
      rw [List.length_eq_zero.mp hl]
      exact hk
  | succ n ih =>
    simp only [matchTimes]
    rw [matchOne_iff]
    constructor
    · rintro ⟨c, v, rfl, hc, hrest⟩
      obtain ⟨u, w, rfl, ⟨hl, hall⟩, hk⟩ := (ih v).mp hrest
      refine ⟨c :: u, w, rfl, ⟨by simp [hl], ?_⟩, hk⟩
      intro x hx
      rcases List.mem_cons.mp hx with rfl | hx
      · exact hc
      · exact hall x hx
    · rintro ⟨u, v, rfl, ⟨hl, hall⟩, hk⟩
      cases u with
      | nil => simp at hl
      | cons c u =>
        refine ⟨c, u ++ v, rfl, hall c (List.mem_cons_self _ _), ?_⟩
        refine (ih (u ++ v)).mpr ⟨u, v, rfl, ⟨by simpa using hl, ?_⟩, hk⟩
        exact fun x hx => hall x (List.mem_cons_of_mem _ hx)

theorem matchStar_iff (p : Char → Bool) (k : JsString → Bool) (s : JsString) :
    matchStar p k s = true ↔ ∃ u v, s = u ++ v ∧ (∀ c ∈ u, p c = true) ∧ k v = true := by
  induction s with
  | nil =>
    simp only [matchStar]
    constructor
    · intro h
      exact ⟨[], [], rfl, by simp, h⟩
    · rintro ⟨u, v, huv, -, hk⟩
      have hv : v = [] := (List.append_eq_nil.mp huv.symm).2
      rw [hv] at hk
      exact hk
  | cons x xs ih =>
    simp only [matchStar, Bool.or_eq_true, Bool.and_eq_true]
    constructor
    · rintro (⟨hx, hrest⟩ | hk)
      · obtain ⟨u, v, rfl, hall, hk⟩ := ih.mp hrest
        refine ⟨x :: u, v, rfl, ?_, hk⟩
        intro c hc
        rcases List.mem_cons.mp hc with rfl | hc
        · exact hx
        · exact hall c hc
      · exact ⟨[], x :: xs, rfl, by simp, hk⟩
    · rintro ⟨u, v, huv, hall, hk⟩
      cases u with
      | nil =>
        right
        rw [huv]
        exact hk
      | cons c u =>
        left
        simp only [List.cons_append, List.cons.injEq] at huv
        obtain ⟨rfl, rfl⟩ := huv
        exact ⟨hall x (List.mem_cons_self _ _),
          ih.mpr ⟨u, v, rfl, fun y hy => hall y (List.mem_cons_of_mem _ hy), hk⟩⟩

theorem matchAtom_iff (a : Atom) (k : JsString → Bool) (s : JsString) :
    matchAtom a k s = true ↔ ∃ u v, s = u ++ v ∧ AtomLang a u ∧ k v = true := by
  obtain ⟨p, q⟩ := a
  cases q with
  | one =>
    simp only [matchAtom, AtomLang]
    rw [matchOne_iff]
    constructor
    · rintro ⟨c, v, rfl, hc, hk⟩
      exact ⟨[c], v, rfl, ⟨c, rfl, hc⟩, hk⟩
    · rintro ⟨u, v, rfl, ⟨c, rfl, hc⟩, hk⟩
      exact ⟨c, v, rfl, hc, hk⟩
  | opt =>
    simp only [matchAtom, AtomLang, Bool.or_eq_true]
    rw [matchOne_iff]
    constructor
    · rintro (⟨c, v, rfl, hc, hk⟩ | hk)
      · exact ⟨[c], v, rfl, Or.inr ⟨c, rfl, hc⟩, hk⟩
      · exact ⟨[], s, rfl, Or.inl rfl, hk⟩
    · rintro ⟨u, v, rfl, (rfl | ⟨c, rfl, hc⟩), hk⟩
      · exact Or.inr hk
      · exact Or.inl ⟨c, v, rfl, hc, hk⟩
  | plus =>
    simp only [matchAtom, AtomLang]
    rw [matchOne_iff]
    constructor
    · rintro ⟨c, v, rfl, hc, hrest⟩
      obtain ⟨u, w, rfl, hall, hk⟩ := (matchStar_iff p k v).mp hrest
      refine ⟨c :: u, w, rfl, ⟨by simp, ?_⟩, hk⟩
      intro x hx
      rcases List.mem_cons.mp hx with rfl | hx
      · exact hc
      · exact hall x hx
    · rintro ⟨u, v, rfl, ⟨hne, hall⟩, hk⟩
      cases u with
      | nil => exact absurd rfl hne
      | cons c u =>
        exact ⟨c, u ++ v, rfl, hall c (List.mem_cons_self _ _),
          (matchStar_iff p k (u ++ v)).mpr
            ⟨u, v, rfl, fun y hy => hall y (List.mem_cons_of_mem _ hy), hk⟩⟩
  | times n =>
    simp only [matchAtom, AtomLang]
    exact matchTimes_iff p n k s

/-- The backtracking matcher accepts exactly the declarative language. -/
theorem regexTest_iff (re : List Atom) (s : JsString) :
    regexTest re s = true ↔ SeqLang re s := by
  unfold regexTest
  induction re generalizing s with
  | nil => simp [matchSeq, SeqLang]
  | cons a rest ih =>
    simp only [matchSeq, SeqLang]
    rw [matchAtom_iff]
    constructor
    · rintro ⟨u, v, rfl, hu, hv⟩
      exact ⟨u, v, rfl, hu, (ih v).mp hv⟩
    · rintro ⟨u, v, rfl, hu, hv⟩
      exact ⟨u, v, rfl, hu, (ih v).mpr hv⟩

theorem atomLang_lit (c : Char) (u : JsString) : AtomLang (lit c) u ↔ u = [c] := by
  simp only [AtomLang, lit, beq_iff_eq]
  constructor
  · rintro ⟨x, rfl, rfl⟩
    rfl
  · rintro rfl
    exact ⟨c, rfl, rfl⟩

/-- The phone pattern accepts exactly the loose mask. -/
theorem phoneRegex_iff (p : JsString) : regexTest phoneRegex p = true ↔ LooseMask p := by
  rw [regexTest_iff]
  simp only [phoneRegex, SeqLang, atomLang_lit]
  constructor
  · rintro ⟨_, _, rfl, rfl, _, _, rfl, rfl, s₁, _, rfl, h₁, _, _, rfl, rfl, a, _, rfl, ha,
      _, _, rfl, rfl, s₂, _, rfl, h₂, b, _, rfl, hb, _, _, rfl, rfl, c, _, rfl, hc,
      _, _, rfl, rfl, d, _, rfl, hd, rfl⟩
    exact ⟨s₁, s₂, a, b, c, d, h₁, h₂, ha, hb, hc, hd, by simp⟩
  · rintro ⟨s₁, s₂, a, b, c, d, h₁, h₂, ha, hb, hc, hd, rfl⟩
    exact ⟨_, _, by simp, rfl, _, _, rfl, rfl, s₁, _, rfl, h₁, _, _, rfl, rfl, a, _, rfl, ha,
      _, _, rfl, rfl, s₂, _, rfl, h₂, b, _, rfl, hb, _, _, rfl, rfl, c, _, rfl, hc,
      _, _, rfl, rfl, d, _, rfl, hd, rfl⟩

/-! ## Facts about the mask -/

theorem slice_append_slice (d : JsString) (a b c : Nat) (hab : a ≤ b) (hbc : b ≤ c) :
    slice d a b ++ slice d b c = slice d a c := by
  unfold slice
  have h1 : c - a = (b - a) + (c - b) := by omega
  have h2 : List.drop b d = List.drop (b - a) (List.drop a d) := by
    rw [List.drop_drop]
    congr 1
    omega
  rw [h1, List.take_add, h2]

theorem slice_zero_of_length_le (d : JsString) (n : Nat) (h : d.length ≤ n) :
    slice d 0 n = d := by
  unfold slice
  simp [List.take_of_length_le h]

theorem slice_zero (d : JsString) (n : Nat) : slice d 0 n = d.take n := by
  unfold slice
  simp

theorem slice_append_sliceFrom (d : JsString) (a b : Nat) (hab : a ≤ b) :
    slice d a b ++ sliceFrom d b = sliceFrom d a := by
  unfold slice sliceFrom
  have h2 : List.drop b d = List.drop (b - a) (List.drop a d) := by
    rw [List.drop_drop]
    congr 1
    omega
  rw [h2, List.take_append_drop]

theorem slice_take (d : JsString) (a b n : Nat) (h : b ≤ n) :
    slice (d.take n) a b = slice d a b := by
  unfold slice
  rw [List.drop_take, List.take_take]
  congr 1
  omega

theorem mem_slice {d : JsString} {a b : Nat} {c : Char} (h : c ∈ slice d a b) : c ∈ d :=
  List.mem_of_mem_drop (List.mem_of_mem_take h)

theorem mem_sliceFrom {d : JsString} {a : Nat} {c : Char} (h : c ∈ sliceFrom d a) : c ∈ d :=
  List.mem_of_mem_drop h

theorem digitBuffer_digits (raw : JsString) : ∀ c ∈ digitBuffer raw, isDigit c = true := by
  intro c hc
  unfold digitBuffer at hc
  have hall : ∀ x ∈ raw.filter isDigit, isDigit x = true := fun x hx => (List.mem_filter.mp hx).2
  cases hf : raw.filter isDigit with
  | nil => rw [hf] at hc; simp at hc
  | cons x rest =>
    rw [hf] at hc hall
    simp only at hc
    split at hc
    · exact hall c (List.mem_cons_of_mem _ hc)
    · exact hall c hc

theorem filter_digits_self {l : JsString} (h : ∀ c ∈ l, isDigit c = true) :
    l.filter isDigit = l :=
  List.filter_eq_self.mpr h

/-- The digits of the mask are the country code followed by the first ten
digits of the buffer. -/
theorem digits_maskOf (d : JsString) (hd : ∀ c ∈ d, isDigit c = true) (hne : d ≠ []) :
    replaceNonDigits (maskOf d) = '7' :: d.take 10 := by
  have hlen : d.length ≠ 0 := fun h => hne (List.length_eq_zero.mp h)
  have hs : ∀ a b, (slice d a b).filter isDigit = slice d a b :=
    fun a b => filter_digits_self (fun c hc => hd c (mem_slice hc))
  have hsf : ∀ a, (sliceFrom d a).filter isDigit = sliceFrom d a :=
    fun a => filter_digits_self (fun c hc => hd c (mem_sliceFrom hc))
  have hpre : List.filter isDigit "+7 (".toList = ['7'] := by decide
  have hmid : List.filter isDigit ") ".toList = [] := by decide
  have hdash : List.filter isDigit "-".toList = [] := by decide
  unfold replaceNonDigits maskOf
  rw [if_neg hlen]
  by_cases h3 : d.length ≤ 3
  · rw [if_pos h3, List.filter_append, hpre, filter_digits_self hd,
      List.take_of_length_le (by omega)]
    rfl
  rw [if_neg h3]
  by_cases h6 : d.length ≤ 6
  · rw [if_pos h6]
    simp only [List.filter_append, hpre, hmid, hs, hsf, List.append_nil, List.append_assoc,
      List.nil_append]
    rw [slice_append_sliceFrom d 0 3 (by decide), List.take_of_length_le (by omega)]
    simp [sliceFrom]
  rw [if_neg h6]
  by_cases h8 : d.length ≤ 8
  · rw [if_pos h8]
    simp only [List.filter_append, hpre, hmid, hdash, hs, hsf, List.append_nil, List.append_assoc,
      List.nil_append]
    rw [slice_append_sliceFrom d 3 6 (by decide), slice_append_sliceFrom d 0 3 (by decide),
      List.take_of_length_le (by omega)]
    simp [sliceFrom]
  rw [if_neg h8]
  simp only [List.filter_append, hpre, hmid, hdash, hs, List.append_nil, List.append_assoc,
    List.nil_append]
  rw [slice_append_slice d 6 8 10 (by decide) (by decide),
    slice_append_slice d 3 6 10 (by decide) (by decide),
    slice_append_slice d 0 3 10 (by decide) (by decide), slice_zero]
  rfl

/-- The mask only depends on the first ten digits of the buffer. -/
theorem maskOf_take_ten (d : JsString) : maskOf (d.take 10) = maskOf d := by
  by_cases h : d.length ≤ 10
  · rw [List.take_of_length_le h]
  · have hl : (d.take 10).length = 10 := by
      rw [List.length_take]
      omega
    unfold maskOf
    rw [hl]
    have h0 : ¬ d.length = 0 := by omega
    have h3 : ¬ d.length ≤ 3 := by omega
    have h6 : ¬ d.length ≤ 6 := by omega
    have h8 : ¬ d.length ≤ 8 := by omega
    simp only [h0, h3, h6, h8, if_false, Nat.reduceLeDiff, Nat.reduceEqDiff,
      slice_take d 0 3 10 (by decide), slice_take d 3 6 10 (by decide),
      slice_take d 6 8 10 (by decide), slice_take d 8 10 10 (by decide)]

theorem digitBuffer_of_seven_cons (raw rest : JsString)
    (h : replaceNonDigits raw = '7' :: rest) : digitBuffer raw = rest := by
  unfold digitBuffer
  unfold replaceNonDigits at h
  rw [h]
  simp

theorem notSpaceAt_iff (c : Char) : notSpaceAt c = true ↔ isSpace c = false ∧ c ≠ '@' := by
  unfold notSpaceAt
  cases isSpace c <;> simp

/-- The email pattern accepts exactly the shape `l@m.t`. -/
theorem emailRegex_iff (e : JsString) : regexTest emailRegex e = true ↔ EmailShape e := by
  rw [regexTest_iff]
  simp only [emailRegex, SeqLang, atomLang_lit]
  constructor
  · rintro ⟨l, _, rfl, ⟨hl, hl2⟩, _, _, rfl, rfl, m, _, rfl, ⟨hm, hm2⟩, _, _, rfl, rfl,
      t, _, rfl, ⟨ht, ht2⟩, rfl⟩
    exact ⟨l, m, t, hl, hm, ht, fun c hc => (notSpaceAt_iff c).mp (hl2 c hc),
      fun c hc => (notSpaceAt_iff c).mp (hm2 c hc),
      fun c hc => (notSpaceAt_iff c).mp (ht2 c hc), by simp⟩
  · rintro ⟨l, m, t, hl, hm, ht, hl2, hm2, ht2, rfl⟩
    exact ⟨l, _, by simp, ⟨hl, fun c hc => (notSpaceAt_iff c).mpr (hl2 c hc)⟩, _, _, rfl, rfl,
      m, _, rfl, ⟨hm, fun c hc => (notSpaceAt_iff c).mpr (hm2 c hc)⟩, _, _, rfl, rfl,
      t, _, rfl, ⟨ht, fun c hc => (notSpaceAt_iff c).mpr (ht2 c hc)⟩, rfl⟩

theorem isDigit_eq_false_of_isSpace (c : Char) (h : isSpace c = true) : isDigit c = false := by
  unfold isSpace at h
  unfold isDigit
  generalize c.toNat = n at h
  simp only [Bool.or_eq_true, Bool.and_eq_true, decide_eq_true_eq] at h
  simp only [Bool.and_eq_false_iff, decide_eq_false_iff_not]
  omega

theorem optSpace_filter_digits {u : JsString} (h : OptSpace u) : u.filter isDigit = [] := by
  rcases h with rfl | ⟨c, rfl, hc⟩
  · rfl
  · simp [isDigit_eq_false_of_isSpace c hc]

theorem exactMask_loose {p : JsString} (h : ExactMask p) : LooseMask p := by
  obtain ⟨a, b, c, d, ha, hb, hc, hd, rfl⟩ := h
  exact ⟨[' '], [' '], a, b, c, d, Or.inr ⟨' ', rfl, by decide⟩, Or.inr ⟨' ', rfl, by decide⟩,
    ha, hb, hc, hd, by simp⟩

theorem exactMask_length {p : JsString} (h : ExactMask p) : p.length = 18 := by
  obtain ⟨a, b, c, d, ha, hb, hc, hd, rfl⟩ := h
  simp [ha.1, hb.1, hc.1, hd.1]

/-- A string accepted by the phone pattern carries exactly eleven digits. -/
theorem looseMask_digit_count {p : JsString} (h : LooseMask p) :
    (replaceNonDigits p).length = 11 := by
  obtain ⟨s₁, s₂, a, b, c, d, h₁, h₂, ha, hb, hc, hd, rfl⟩ := h
  have h7 : List.filter isDigit "+7".toList = ['7'] := by decide
  have hop : List.filter isDigit "(".toList = [] := by decide
  have hcl : List.filter isDigit ")".toList = [] := by decide
  have hda : List.filter isDigit "-".toList = [] := by decide
  unfold replaceNonDigits
  simp only [List.filter_append, h7, hop, hcl, hda, optSpace_filter_digits h₁,
    optSpace_filter_digits h₂, filter_digits_self ha.2, filter_digits_self hb.2,
    filter_digits_self hc.2, filter_digits_self hd.2, List.length_append, ha.1, hb.1, hc.1, hd.1,
    List.length_nil, List.length_cons]

theorem slice_length (d : JsString) (a b : Nat) (hab : a ≤ b) (hb : b ≤ d.length) :
    (slice d a b).length = b - a := by
  unfold slice
  rw [List.length_take, List.length_drop]
  omega

theorem maskOf_exact (d : JsString) (hd : ∀ c ∈ d, isDigit c = true) (h : 10 ≤ d.length) :
    ExactMask (maskOf d) := by
  refine ⟨slice d 0 3, slice d 3 6, slice d 6 8, slice d 8 10,
    ⟨slice_length d 0 3 (by decide) (by omega), fun c hc => hd c (mem_slice hc)⟩,
    ⟨slice_length d 3 6 (by decide) (by omega), fun c hc => hd c (mem_slice hc)⟩,
    ⟨slice_length d 6 8 (by decide) (by omega), fun c hc => hd c (mem_slice hc)⟩,
    ⟨slice_length d 8 10 (by decide) (by omega), fun c hc => hd c (mem_slice hc)⟩, ?_⟩
  unfold maskOf
  rw [if_neg (by omega), if_neg (by omega), if_neg (by omega), if_neg (by omega)]

/-! ## Facts about the validator -/

theorem trim_isEmpty_iff (s : JsString) :
    (trim s).isEmpty = true ↔ ∀ c ∈ s, isSpace c = true := by
  unfold trim
  rw [List.isEmpty_iff, List.reverse_eq_nil_iff, List.dropWhile_eq_nil_iff]
  constructor
  · intro h
    have hnil : s.dropWhile isSpace = [] := by
      cases hd : s.dropWhile isSpace with
      | nil => rfl
      | cons x xs =>
        have hx : isSpace x = true := h x (by rw [hd]; simp)
        have hhead := List.head_dropWhile_not isSpace s (by rw [hd]; simp)
        simp only [hd, List.head_cons] at hhead
        rw [hx] at hhead
        exact absurd hhead (by decide)
    exact List.dropWhile_eq_nil_iff.mp hnil
  · intro h c hc
    rw [List.dropWhile_eq_nil_iff.mpr h] at hc
    simp at hc

theorem errorsIn_append (nodes : Nat → List JsString) (l₁ l₂ : List Nat) :
    errorsIn nodes (l₁ ++ l₂) = errorsIn nodes l₁ ++ errorsIn nodes l₂ := by
  induction l₁ with
  | nil => rfl
  | cons c cs ih => simp [errorsIn, ih]

theorem errorsIn_congr {n₁ n₂ : Nat → List JsString} {l : List Nat}
    (h : ∀ c ∈ l, n₁ c = n₂ c) : errorsIn n₁ l = errorsIn n₂ l := by
  induction l with
  | nil => rfl
  | cons c cs ih =>
    simp only [errorsIn]
    rw [h c (List.mem_cons_self _ _), ih (fun x hx => h x (List.mem_cons_of_mem _ hx))]

theorem removeFirstError_outside (nodes : Nat → List JsString) (l : List Nat) (c : Nat)
    (h : c ∉ l) : removeFirstError nodes l c = nodes c := by
  induction l with
  | nil => rfl
  | cons x xs ih =>
    have hx : c ≠ x := fun e => h (e ▸ List.mem_cons_self _ _)
    have hxs : c ∉ xs := fun e => h (List.mem_cons_of_mem _ e)
    simp only [removeFirstError]
    split
    · exact ih hxs
    · exact Function.update_noteq hx _ _

/-- Removing the first error node found in a list of containers removes the
head of their joint list of error nodes. -/
theorem errorsIn_removeFirstError (nodes : Nat → List JsString) (l : List Nat)
    (h : l.Nodup) : errorsIn (removeFirstError nodes l) l = (errorsIn nodes l).tail := by
  induction l with
  | nil => rfl
  | cons c cs ih =>
    have hc : c ∉ cs := (List.nodup_cons.mp h).1
    have hcs : cs.Nodup := (List.nodup_cons.mp h).2
    simp only [removeFirstError]
    by_cases he : (nodes c).isEmpty = true
    · rw [if_pos he]
      have hnil : nodes c = [] := List.isEmpty_iff.mp he
      simp only [errorsIn]
      rw [removeFirstError_outside nodes cs c hc, ih hcs, hnil]
      rfl
    · rw [if_neg he]
      simp only [errorsIn, Function.update_same]
      have hrest : errorsIn (Function.update nodes c (nodes c).tail) cs = errorsIn nodes cs :=
        errorsIn_congr (fun x hx => Function.update_noteq (fun (e : x = c) => hc (e ▸ hx)) _ _)
      rw [hrest]
      cases hn : nodes c with
      | nil => rw [hn] at he; exact absurd rfl he
      | cons y ys => rfl

theorem within_nodup (form : Form) (q : Nat) : (form.within q).Nodup := by
  unfold Form.within
  rw [List.nodup_append]
  refine ⟨form.nested_nodup q, List.nodup_singleton q, ?_⟩
  intro a ha hb
  rw [List.mem_singleton] at hb
  exact form.nested_irrefl q (hb ▸ ha)

/-- Two distinct containers, neither nested inside the other, have no
container in common. -/
theorem within_disjoint (form : Form) (p q : Nat) (hne : p ≠ q)
    (hpq : p ∉ form.nested q) (hqp : q ∉ form.nested p) :
    ∀ c ∈ form.within p, c ∉ form.within q := by
  intro c hp hq
  unfold Form.within at hp hq
  rw [List.mem_append, List.mem_singleton] at hp hq
  rcases hp with hp | rfl
  · rcases hq with hq | rfl
    · rcases form.nested_chain p q c hp hq with h | h | h
      · exact hne h
      · exact hpq h
      · exact hqp h
    · exact hqp hp
  · rcases hq with hq | h
    · exact hpq hq
    · exact hne h

theorem showFieldError_at_parent (form : Form) (view : View) (f : Nat) (m : JsString) :
    (showFieldError form view f m).fieldErrors form (form.parentNode f) =
      (view.fieldErrors form (form.parentNode f)).tail ++ [m] := by
  have hclear := errorsIn_removeFirstError view.errorNodes (form.within (form.parentNode f))
    (within_nodup form _)
  simp only [View.fieldErrors, showFieldError, clearFieldError]
  rw [← hclear]
  unfold Form.within
  rw [errorsIn_append, errorsIn_append]
  simp only [errorsIn, Function.update_same, List.append_nil, List.append_assoc]
  congr 1
  exact errorsIn_congr (fun x hx =>
    Function.update_noteq (fun e => form.nested_irrefl _ (e ▸ hx)) _ _)

theorem clearFieldError_elsewhere (form : Form) (view : View) (f : Nat) (q : Nat)
    (h : ∀ c ∈ form.within (form.parentNode f), c ∉ form.within q) :
    (clearFieldError form view f).fieldErrors form q = view.fieldErrors form q := by
  simp only [View.fieldErrors, clearFieldError]
  apply errorsIn_congr
  intro c hc
  have hout : c ∉ form.within (form.parentNode f) := fun hin => h c hin hc
  exact removeFirstError_outside _ _ _ hout

theorem showFieldError_elsewhere (form : Form) (view : View) (f : Nat) (m : JsString) (q : Nat)
    (h : ∀ c ∈ form.within (form.parentNode f), c ∉ form.within q) :
    (showFieldError form view f m).fieldErrors form q = view.fieldErrors form q := by
  rw [← clearFieldError_elsewhere form view f q h]
  simp only [View.fieldErrors, showFieldError]
  apply errorsIn_congr
  intro c hc
  have hne : c ≠ form.parentNode f := by
    intro e
    apply h (form.parentNode f) _ (e ▸ hc)
    unfold Form.within
    simp
  exact Function.update_noteq hne _ _

theorem showFieldError_keeps_nonempty (form : Form) (view : View) (f g : Nat) (m : JsString)
    (hsep : g = f ∨ ∀ c ∈ form.within (form.parentNode g), c ∉ form.within (form.parentNode f))
    (h : view.fieldErrors form (form.parentNode f) ≠ []) :
    (showFieldError form view g m).fieldErrors form (form.parentNode f) ≠ [] := by
  rcases hsep with rfl | hsep
  · rw [showFieldError_at_parent]
    simp
  · rw [showFieldError_elsewhere form view g m _ hsep]
    exact h

/-- Under the two layout assumptions, two validated fields are the same field
or their containers have no container in common. -/
theorem same_or_apart (form : Form) (hd : DistinctParents form) (hu : UnnestedParents form)
    (f g : Nat) (hf : f ∈ validatedFields form) (hg : g ∈ validatedFields form) :
    g = f ∨ ∀ c ∈ form.within (form.parentNode g), c ∉ form.within (form.parentNode f) := by
  by_cases hgf : g = f
  · exact Or.inl hgf
  · right
    exact within_disjoint form _ _ (fun e => hgf (hd g hg f hf e)) (hu f hf g hg) (hu g hg f hf)

theorem requiredLoop_flag (form : Form) (l : List Nat) (st : View × Bool) :
    (l.foldl (requiredStep form) st).2 = true ↔
      st.2 = true ∧ ∀ f ∈ l, ∃ c ∈ form.value f, isSpace c = false := by
  induction l generalizing st with
  | nil => simp
  | cons g l ih =>
    rw [List.foldl_cons, ih]
    unfold requiredStep
    by_cases hg : (trim (form.value g)).isEmpty = true
    · rw [if_pos hg]
      have hall := (trim_isEmpty_iff _).mp hg
      constructor
      · rintro ⟨h, -⟩
        exact absurd h Bool.false_ne_true
      · rintro ⟨-, h⟩
        obtain ⟨c, hc, hsp⟩ := h g (List.mem_cons_self _ _)
        rw [hall c hc] at hsp
        exact absurd hsp (by decide)
    · rw [if_neg hg]
      have hex : ∃ c ∈ form.value g, isSpace c = false := by
        by_contra hcon
        apply hg
        rw [trim_isEmpty_iff]
        intro c hc
        by_contra hsp
        exact hcon ⟨c, hc, by simpa using hsp⟩
      constructor
      · rintro ⟨h1, h2⟩
        refine ⟨h1, ?_⟩
        intro f hf
        rcases List.mem_cons.mp hf with rfl | hf
        · exact hex
        · exact h2 f hf
      · rintro ⟨h1, h2⟩
        exact ⟨h1, fun f hf => h2 f (List.mem_cons_of_mem _ hf)⟩

theorem phoneCheck_flag (form : Form) (st : View × Bool) :
    (phoneCheck form st).2 = true ↔
      st.2 = true ∧
        ∀ f, form.phone = some f → form.value f ≠ [] →
          regexTest phoneRegex (form.value f) = true := by
  unfold phoneCheck
  cases hp : form.phone with
  | none => simp
  | some p =>
    simp only [Option.some.injEq, forall_eq']
    cases hv : form.value p with
    | nil => simp
    | cons x xs =>
      cases hr : regexTest phoneRegex (x :: xs) <;> simp

theorem emailCheck_flag (form : Form) (st : View × Bool) :
    (emailCheck form st).2 = true ↔
      st.2 = true ∧
        ∀ f, form.email = some f → form.value f ≠ [] →
          regexTest emailRegex (form.value f) = true := by
  unfold emailCheck
  cases hp : form.email with
  | none => simp
  | some p =>
    simp only [Option.some.injEq, forall_eq']
    cases hv : form.value p with
    | nil => simp
    | cons x xs =>
      cases hr : regexTest emailRegex (x :: xs) <;> simp

/-- The flag returned by `validateForm` as a condition on the field values. -/
theorem validateForm_flag (form : Form) (view : View) :
    (validateForm form view).2 = true ↔
      (∀ f ∈ form.required, ∃ c ∈ form.value f, isSpace c = false) ∧
      (∀ f, form.phone = some f → form.value f ≠ [] →
        regexTest phoneRegex (form.value f) = true) ∧
      (∀ f, form.email = some f → form.value f ≠ [] →
        regexTest emailRegex (form.value f) = true) := by
  unfold validateForm
  simp only [emailCheck_flag, phoneCheck_flag, requiredLoop_flag, true_and]
  tauto

theorem phoneCheck_keeps_nonempty (form : Form) (st : View × Bool) (f : Nat)
    (hsep : ∀ g, form.phone = some g →
      g = f ∨ ∀ c ∈ form.within (form.parentNode g), c ∉ form.within (form.parentNode f))
    (h : st.1.fieldErrors form (form.parentNode f) ≠ []) :
    (phoneCheck form st).1.fieldErrors form (form.parentNode f) ≠ [] := by
  unfold phoneCheck
  split
  · rename_i g hg
    split
    · split
      · exact showFieldError_keeps_nonempty _ _ _ _ _ (hsep g hg) h
      · exact h
    · exact h
  · exact h

theorem emailCheck_keeps_nonempty (form : Form) (st : View × Bool) (f : Nat)
    (hsep : ∀ g, form.email = some g →
      g = f ∨ ∀ c ∈ form.within (form.parentNode g), c ∉ form.within (form.parentNode f))
    (h : st.1.fieldErrors form (form.parentNode f) ≠ []) :
    (emailCheck form st).1.fieldErrors form (form.parentNode f) ≠ [] := by
  unfold emailCheck
  split
  · rename_i g hg
    split
    · split
      · exact showFieldError_keeps_nonempty _ _ _ _ _ (hsep g hg) h
      · exact h
    · exact h
  · exact h

theorem requiredLoop_marks_blank (form : Form) (f : Nat)
    (hblank : ∀ c ∈ form.value f, isSpace c = true) (l : List Nat) (st : View × Bool)
    (hsep : ∀ g ∈ l,
      g = f ∨ ∀ c ∈ form.within (form.parentNode g), c ∉ form.within (form.parentNode f))
    (h : f ∈ l ∨ st.1.fieldErrors form (form.parentNode f) ≠ []) :
    (l.foldl (requiredStep form) st).1.fieldErrors form (form.parentNode f) ≠ [] := by
  induction l generalizing st with
  | nil =>
    rcases h with h | h
    · simp at h
    · exact h
  | cons g l ih =>
    rw [List.foldl_cons]
    apply ih _ (fun x hx => hsep x (List.mem_cons_of_mem _ hx))
    rcases hsep g (List.mem_cons_self _ _) with hgf | hapart
    · right
      subst hgf
      unfold requiredStep
      rw [if_pos ((trim_isEmpty_iff _).mpr hblank)]
      simp [showFieldError_at_parent]
    · by_cases hgf : g = f
      · right
        subst hgf
        unfold requiredStep
        rw [if_pos ((trim_isEmpty_iff _).mpr hblank)]
        simp [showFieldError_at_parent]
      · rcases h with h | h
        · rcases List.mem_cons.mp h with rfl | h
          · exact absurd rfl hgf
          · exact Or.inl h
        · right
          unfold requiredStep
          split
          · rw [showFieldError_elsewhere _ _ _ _ _ hapart]
            exact h
          · rw [clearFieldError_elsewhere _ _ _ _ hapart]
            exact h

theorem validateForm_flag_indep (form : Form) (v w : View) :
    (validateForm form v).2 = (validateForm form w).2 := by
  have h := (validateForm_flag form v).trans (validateForm_flag form w).symm
  cases hv : (validateForm form v).2 <;> cases hw : (validateForm form w).2 <;> simp_all

theorem requiredLoop_frame (form : Form) (l : List Nat) (st : View × Bool) :
    (l.foldl (requiredStep form) st).1.buttonClasses = st.1.buttonClasses ∧
    (l.foldl (requiredStep form) st).1.buttonDisabled = st.1.buttonDisabled ∧
    (l.foldl (requiredStep form) st).1.notifications = st.1.notifications ∧
    (l.foldl (requiredStep form) st).1.requests = st.1.requests ∧
    (l.foldl (requiredStep form) st).1.timers = st.1.timers := by
  induction l generalizing st with
  | nil => simp
  | cons g l ih =>
    rw [List.foldl_cons]
    have hstep : (requiredStep form st g).1.buttonClasses = st.1.buttonClasses ∧
        (requiredStep form st g).1.buttonDisabled = st.1.buttonDisabled ∧
        (requiredStep form st g).1.notifications = st.1.notifications ∧
        (requiredStep form st g).1.requests = st.1.requests ∧
        (requiredStep form st g).1.timers = st.1.timers := by
      unfold requiredStep
      split <;> simp [showFieldError, clearFieldError]
    obtain ⟨h1, h2, h3, h4, h5⟩ := ih (requiredStep form st g)
    obtain ⟨k1, k2, k3, k4, k5⟩ := hstep
    exact ⟨h1.trans k1, h2.trans k2, h3.trans k3, h4.trans k4, h5.trans k5⟩

theorem phoneCheck_frame (form : Form) (st : View × Bool) :
    (phoneCheck form st).1.buttonClasses = st.1.buttonClasses ∧
    (phoneCheck form st).1.buttonDisabled = st.1.buttonDisabled ∧
    (phoneCheck form st).1.notifications = st.1.notifications ∧
    (phoneCheck form st).1.requests = st.1.requests ∧
    (phoneCheck form st).1.timers = st.1.timers := by
  unfold phoneCheck
  split
  · split
    · split <;> simp [showFieldError, clearFieldError]
    · simp
  · simp

theorem emailCheck_frame (form : Form) (st : View × Bool) :
    (emailCheck form st).1.buttonClasses = st.1.buttonClasses ∧
    (emailCheck form st).1.buttonDisabled = st.1.buttonDisabled ∧
    (emailCheck form st).1.notifications = st.1.notifications ∧
    (emailCheck form st).1.requests = st.1.requests ∧
    (emailCheck form st).1.timers = st.1.timers := by
  unfold emailCheck
  split
  · split
    · split <;> simp [showFieldError, clearFieldError]
    · simp
  · simp

/-- The validator only touches border colours and error nodes. -/
theorem validateForm_frame (form : Form) (view : View) :
    (validateForm form view).1.buttonClasses = view.buttonClasses ∧
    (validateForm form view).1.buttonDisabled = view.buttonDisabled ∧
    (validateForm form view).1.notifications = view.notifications ∧
    (validateForm form view).1.requests = view.requests ∧
    (validateForm form view).1.timers = view.timers := by
  unfold validateForm
  obtain ⟨a1, a2, a3, a4, a5⟩ := requiredLoop_frame form form.required (view, true)
  obtain ⟨b1, b2, b3, b4, b5⟩ :=
    phoneCheck_frame form (form.required.foldl (requiredStep form) (view, true))
  obtain ⟨c1, c2, c3, c4, c5⟩ :=
    emailCheck_frame form (phoneCheck form (form.required.foldl (requiredStep form) (view, true)))
  exact ⟨c1.trans (b1.trans a1), c2.trans (b2.trans a2), c3.trans (b3.trans a3),
    c4.trans (b4.trans a4), c5.trans (b5.trans a5)⟩

theorem setLoadingState_frame (form : Form) (view : View) (loading : Bool) :
    (setLoadingState form view loading).notifications = view.notifications ∧
    (setLoadingState form view loading).requests = view.requests ∧
    (setLoadingState form view loading).timers = view.timers := by
  unfold setLoadingState
  cases form.hasPayButton <;> cases loading <;> simp

/-! ## The phone mask: claims C1, C2, C3, C10 -/

/-- C1: with `d` the digit buffer of the raw value, the `input` listener writes
`+7 (d` for 1 to 3 digits, `+7 (d[0..3]) d[3..]` for 4 to 6 digits,
`+7 (d[0..3]) d[3..6]-d[6..]` for 7 or 8 digits and
`+7 (d[0..3]) d[3..6]-d[6..8]-d[8..]` for 9 or 10 digits; `7701` gives `+7 (701`
and `77011234567` gives `+7 (701) 123-45-67`. -/
theorem phoneInputHandler_tiers (r : JsString) :
    (1 ≤ (digitBuffer r).length ∧ (digitBuffer r).length ≤ 3 →
      phoneInputHandler r = "+7 (".toList ++ digitBuffer r) ∧
    (4 ≤ (digitBuffer r).length ∧ (digitBuffer r).length ≤ 6 →
      phoneInputHandler r =
        "+7 (".toList ++ slice (digitBuffer r) 0 3 ++ ") ".toList ++ sliceFrom (digitBuffer r) 3) ∧
    (7 ≤ (digitBuffer r).length ∧ (digitBuffer r).length ≤ 8 →
      phoneInputHandler r =
        "+7 (".toList ++ slice (digitBuffer r) 0 3 ++ ") ".toList ++ slice (digitBuffer r) 3 6 ++
          "-".toList ++ sliceFrom (digitBuffer r) 6) ∧
    (9 ≤ (digitBuffer r).length ∧ (digitBuffer r).length ≤ 10 →
      phoneInputHandler r =
        "+7 (".toList ++ slice (digitBuffer r) 0 3 ++ ") ".toList ++ slice (digitBuffer r) 3 6 ++
          "-".toList ++ slice (digitBuffer r) 6 8 ++ "-".toList ++ sliceFrom (digitBuffer r) 8) ∧
    phoneInputHandler "7701".toList = "+7 (701".toList ∧
    phoneInputHandler "77011234567".toList = "+7 (701) 123-45-67".toList := by
  rw [phoneInputHandler_eq_maskOf]
  generalize digitBuffer r = d
  refine ⟨?_, ?_, ?_, ?_, by decide, by decide⟩
  · rintro ⟨h1, h3⟩
    unfold maskOf
    rw [if_neg (by omega), if_pos h3]
  · rintro ⟨h4, h6⟩
    unfold maskOf
    rw [if_neg (by omega), if_neg (by omega), if_pos h6]
  · rintro ⟨h7, h8⟩
    unfold maskOf
    rw [if_neg (by omega), if_neg (by omega), if_neg (by omega), if_pos h8]
  · rintro ⟨h9, h10⟩
    unfold maskOf
    rw [if_neg (by omega), if_neg (by omega), if_neg (by omega), if_neg (by omega)]
    have : slice d 8 10 = sliceFrom d 8 := by
      unfold slice sliceFrom
      apply List.take_of_length_le
      rw [List.length_drop]
      omega
    rw [this]

/-- Witness of C1: one raw value in each of the four tiers. -/
theorem phoneInputHandler_tiers_witness :
    phoneInputHandler "7701".toList = "+7 (".toList ++ digitBuffer "7701".toList ∧
    phoneInputHandler "8 (701) 12".toList =
      "+7 (".toList ++ slice (digitBuffer "8 (701) 12".toList) 0 3 ++ ") ".toList ++
        sliceFrom (digitBuffer "8 (701) 12".toList) 3 ∧
    phoneInputHandler "+7 (701) 123-4".toList =
      "+7 (".toList ++ slice (digitBuffer "+7 (701) 123-4".toList) 0 3 ++ ") ".toList ++
        slice (digitBuffer "+7 (701) 123-4".toList) 3 6 ++ "-".toList ++
        sliceFrom (digitBuffer "+7 (701) 123-4".toList) 6 ∧
    phoneInputHandler "77011234567".toList =
      "+7 (".toList ++ slice (digitBuffer "77011234567".toList) 0 3 ++ ") ".toList ++
        slice (digitBuffer "77011234567".toList) 3 6 ++ "-".toList ++
        slice (digitBuffer "77011234567".toList) 6 8 ++ "-".toList ++
        sliceFrom (digitBuffer "77011234567".toList) 8 :=
  ⟨(phoneInputHandler_tiers "7701".toList).1 (by decide),
   (phoneInputHandler_tiers "8 (701) 12".toList).2.1 (by decide),
   (phoneInputHandler_tiers "+7 (701) 123-4".toList).2.2.1 (by decide),
   (phoneInputHandler_tiers "77011234567".toList).2.2.2.1 (by decide)⟩

/-- C2, as stated, fails: on the raw value `7` the listener does not write
`+7 (`. -/
theorem seven_alone_not_mask_start :
    phoneInputHandler "7".toList ≠ "+7 (".toList := by
  decide

/-- C2, amended: on the raw value `7` the leading `7` is dropped as the country
code, the digit buffer is empty and the listener writes the empty string. -/
theorem seven_alone_gives_empty :
    digitBuffer "7".toList = [] ∧ phoneInputHandler "7".toList = [] := by
  decide

/-- C3: when the digit buffer `d` has more than ten digits the listener writes
`+7 (d[0..3]) d[3..6]-d[6..8]-d[8..10]`; every raw value whose buffer starts
with the same ten digits (in particular one whose buffer is exactly `d[0..10]`)
gives the same output, and the digits of the output are the country code `7`
followed by `d[0..10]`, so no digit at position 10 or later reaches it. -/
theorem phoneInputHandler_drops_after_tenth (r : JsString)
    (h : 10 < (digitBuffer r).length) :
    phoneInputHandler r =
      "+7 (".toList ++ slice (digitBuffer r) 0 3 ++ ") ".toList ++ slice (digitBuffer r) 3 6 ++
        "-".toList ++ slice (digitBuffer r) 6 8 ++ "-".toList ++ slice (digitBuffer r) 8 10 ∧
    (∀ r2 : JsString, (digitBuffer r2).take 10 = (digitBuffer r).take 10 →
      phoneInputHandler r2 = phoneInputHandler r) ∧
    replaceNonDigits (phoneInputHandler r) = '7' :: (digitBuffer r).take 10 := by
  refine ⟨?_, ?_, ?_⟩
  · rw [phoneInputHandler_eq_maskOf]
    unfold maskOf
    rw [if_neg (by omega), if_neg (by omega), if_neg (by omega), if_neg (by omega)]
  · intro r2 h2
    rw [phoneInputHandler_eq_maskOf, phoneInputHandler_eq_maskOf, ← maskOf_take_ten, h2,
      maskOf_take_ten]
  · rw [phoneInputHandler_eq_maskOf]
    apply digits_maskOf _ (digitBuffer_digits r)
    intro h0
    rw [h0] at h
    simp at h

/-- Witness of C3: a raw value with twelve digits after the country code. -/
theorem phoneInputHandler_drops_after_tenth_witness :
    10 < (digitBuffer "+7 (701) 123-45-6789".toList).length ∧
    phoneInputHandler "+7 (701) 123-45-6789".toList = "+7 (701) 123-45-67".toList ∧
    phoneInputHandler "77011234567".toList = phoneInputHandler "+7 (701) 123-45-6789".toList :=
  ⟨by decide,
   (phoneInputHandler_drops_after_tenth "+7 (701) 123-45-6789".toList (by decide)).1.trans
     (by decide),
   (phoneInputHandler_drops_after_tenth "+7 (701) 123-45-6789".toList (by decide)).2.1
     "77011234567".toList (by decide)⟩

/-- C10: the phone mask is idempotent: applying the `input` listener to its own
output gives the same string. -/
theorem phoneInputHandler_idempotent (r : JsString) :
    phoneInputHandler (phoneInputHandler r) = phoneInputHandler r := by
  by_cases h0 : digitBuffer r = []
  · have : phoneInputHandler r = [] := by
      rw [phoneInputHandler_eq_maskOf, h0]
      rfl
    rw [this]
    decide
  · have hd : replaceNonDigits (phoneInputHandler r) = '7' :: (digitBuffer r).take 10 := by
      rw [phoneInputHandler_eq_maskOf]
      exact digits_maskOf _ (digitBuffer_digits r) h0
    rw [phoneInputHandler_eq_maskOf (phoneInputHandler r), digitBuffer_of_seven_cons _ _ hd,
      maskOf_take_ten, ← phoneInputHandler_eq_maskOf]

/-! ## The validator: claims C4, C5, C6, C7 -/

/-- C4, as stated, fails: `+7(701)123-45-67` is not of the form
`+7 (DDD) DDD-DD-DD` with its two spaces, yet the phone pattern accepts it and
`validateForm` passes without attaching any error to the phone field. -/
theorem phone_without_spaces_accepted :
    "+7(701)123-45-67".toList ≠ [] ∧
    ¬ ExactMask "+7(701)123-45-67".toList ∧
    regexTest phoneRegex "+7(701)123-45-67".toList = true ∧
    (validateForm (sampleForm "Alice".toList "+7(701)123-45-67".toList []) cleanView).2 = true ∧
    (validateForm (sampleForm "Alice".toList "+7(701)123-45-67".toList [])
      cleanView).1.fieldErrors (sampleForm "Alice".toList "+7(701)123-45-67".toList []) 11 =
      [] := by
  refine ⟨by decide, ?_, by decide, by decide, by decide⟩
  intro h
  have := exactMask_length h
  simp at this

/-- C4, amended: for a non-empty phone value `p` the phone check of
`validateForm` attaches no error and leaves the flag alone if and only if `p` is
`+7`, at most one whitespace character, `(DDD)`, at most one whitespace
character, `DDD-DD-DD`; otherwise it attaches the phone message and clears the
flag.  `+7 (701) 123-45-67` is accepted and `+7701123-45-67` is rejected. -/
theorem phoneCheck_accepts_iff_looseMask (form : Form) (st : View × Bool) (f : Nat)
    (hf : form.phone = some f) (hne : form.value f ≠ []) :
    (LooseMask (form.value f) → phoneCheck form st = st) ∧
    (¬ LooseMask (form.value f) →
      phoneCheck form st = (showFieldError form st.1 f msgPhone, false) ∧
      (phoneCheck form st).1.fieldErrors form (form.parentNode f) =
        (st.1.fieldErrors form (form.parentNode f)).tail ++ [msgPhone]) ∧
    ((validateForm form st.1).2 = true → LooseMask (form.value f)) ∧
    regexTest phoneRegex "+7 (701) 123-45-67".toList = true ∧
    regexTest phoneRegex "+7701123-45-67".toList = false := by
  have hemp : (form.value f).isEmpty = false := by
    cases hv : form.value f with
    | nil => exact absurd hv hne
    | cons x xs => rfl
  refine ⟨?_, ?_, ?_, by decide, by decide⟩
  · intro h
    have hr := (phoneRegex_iff _).mpr h
    unfold phoneCheck
    simp [hf, hemp, hr]
  · intro h
    have hr : regexTest phoneRegex (form.value f) = false := by
      cases hr : regexTest phoneRegex (form.value f)
      · rfl
      · exact absurd ((phoneRegex_iff _).mp hr) h
    have heq : phoneCheck form st = (showFieldError form st.1 f msgPhone, false) := by
      unfold phoneCheck
      simp [hf, hemp, hr]
    refine ⟨heq, ?_⟩
    rw [heq]
    exact showFieldError_at_parent _ _ _ _
  · intro h
    exact (phoneRegex_iff _).mp (((validateForm_flag form st.1).mp h).2.1 f hf hne)

/-- Witness of C4: a page whose phone field holds `+7 (701) 123-45-67`. -/
theorem phoneCheck_accepts_iff_looseMask_witness :
    (sampleForm "Alice".toList "+7 (701) 123-45-67".toList []).phone = some 1 ∧
    (sampleForm "Alice".toList "+7 (701) 123-45-67".toList []).value 1 ≠ [] ∧
    phoneCheck (sampleForm "Alice".toList "+7 (701) 123-45-67".toList []) (cleanView, true) =
      (cleanView, true) :=
  ⟨rfl, by decide,
   (phoneCheck_accepts_iff_looseMask (sampleForm "Alice".toList "+7 (701) 123-45-67".toList [])
     (cleanView, true) 1 rfl (by decide)).1 ((phoneRegex_iff _).mp (by decide))⟩

/-- C5: an empty email value records no email error; a non-empty email value `e`
is accepted if and only if `e = l ++ "@" ++ m ++ "." ++ t` with `l`, `m`, `t`
non-empty and free of whitespace and `@`, and otherwise the email message is
attached and the flag cleared.  `a@b.com` is accepted and `abc` is rejected. -/
theorem emailCheck_accepts_iff_shape (form : Form) (st : View × Bool) (f : Nat)
    (hf : form.email = some f) :
    (form.value f = [] → emailCheck form st = st) ∧
    (form.value f ≠ [] → EmailShape (form.value f) → emailCheck form st = st) ∧
    (form.value f ≠ [] → ¬ EmailShape (form.value f) →
      emailCheck form st = (showFieldError form st.1 f msgEmail, false) ∧
      (emailCheck form st).1.fieldErrors form (form.parentNode f) =
        (st.1.fieldErrors form (form.parentNode f)).tail ++ [msgEmail]) ∧
    (form.value f ≠ [] → (validateForm form st.1).2 = true → EmailShape (form.value f)) ∧
    regexTest emailRegex "a@b.com".toList = true ∧
    regexTest emailRegex "abc".toList = false := by
  refine ⟨?_, ?_, ?_, ?_, by decide, by decide⟩
  · intro h
    unfold emailCheck
    simp [hf, h]
  · intro hne h
    have hemp : (form.value f).isEmpty = false := by
      cases hv : form.value f with
      | nil => exact absurd hv hne
      | cons x xs => rfl
    have hr := (emailRegex_iff _).mpr h
    unfold emailCheck
    simp [hf, hemp, hr]
  · intro hne h
    have hemp : (form.value f).isEmpty = false := by
      cases hv : form.value f with
      | nil => exact absurd hv hne
      | cons x xs => rfl
    have hr : regexTest emailRegex (form.value f) = false := by
      cases hr : regexTest emailRegex (form.value f)
      · rfl
      · exact absurd ((emailRegex_iff _).mp hr) h
    have heq : emailCheck form st = (showFieldError form st.1 f msgEmail, false) := by
      unfold emailCheck
      simp [hf, hemp, hr]
    refine ⟨heq, ?_⟩
    rw [heq]
    exact showFieldError_at_parent _ _ _ _
  · intro hne h
    exact (emailRegex_iff _).mp (((validateForm_flag form st.1).mp h).2.2 f hf hne)

/-- Witness of C5: pages whose email field is empty and holds `a@b.com`. -/
theorem emailCheck_accepts_iff_shape_witness :
    (sampleForm "Alice".toList "+7 (701) 123-45-67".toList []).email = some 2 ∧
    emailCheck (sampleForm "Alice".toList "+7 (701) 123-45-67".toList []) (cleanView, true) =
      (cleanView, true) ∧
    emailCheck (sampleForm "Alice".toList "+7 (701) 123-45-67".toList "a@b.com".toList)
      (cleanView, true) = (cleanView, true) :=
  ⟨rfl,
   (emailCheck_accepts_iff_shape (sampleForm "Alice".toList "+7 (701) 123-45-67".toList [])
     (cleanView, true) 2 rfl).1 rfl,
   (emailCheck_accepts_iff_shape
     (sampleForm "Alice".toList "+7 (701) 123-45-67".toList "a@b.com".toList)
     (cleanView, true) 2 rfl).2.1 (by decide) ((emailRegex_iff _).mp (by decide))⟩

/-- C6, as stated, fails: on the page
`<form><div><input name required></div><input phone required></form>` with a
blank name and a valid phone number the two fields have distinct parent
containers and `validateForm` returns `false`, yet the offending name field
carries no error message afterwards: `clearFieldError(phone)` searches the whole
form and removes the error node just attached in the inner `div`. -/
theorem nested_container_loses_error :
    DistinctParents (nestedForm [] "+7 (701) 123-45-67".toList) ∧
    (validateForm (nestedForm [] "+7 (701) 123-45-67".toList) cleanView).2 = false ∧
    Offending (nestedForm [] "+7 (701) 123-45-67".toList) 0 ∧
    (validateForm (nestedForm [] "+7 (701) 123-45-67".toList) cleanView).1.fieldErrors
      (nestedForm [] "+7 (701) 123-45-67".toList)
      ((nestedForm [] "+7 (701) 123-45-67".toList).parentNode 0) = [] ∧
    (validateForm (nestedForm [] "+7 (701) 123-45-67".toList) cleanView).1.fieldErrors
      (nestedForm [] "+7 (701) 123-45-67".toList)
      ((nestedForm [] "+7 (701) 123-45-67".toList).parentNode 1) = [] := by
  refine ⟨by decide, by decide, Or.inl ⟨by decide, by decide⟩, by decide, by decide⟩

/-- C6, amended: `validateForm` returns `true` if and only if every required
field has a non-whitespace character, the phone field (if present and
non-empty) matches the phone pattern and the email field (if present and
non-empty) matches the email pattern; and when the validated fields have
distinct parent containers, none of them nested inside another, and it returns
`false`, every offending field carries an error message afterwards. -/
theorem validateForm_result (form : Form) (view : View) :
    ((validateForm form view).2 = true ↔
      (∀ f ∈ form.required, ∃ c ∈ form.value f, isSpace c = false) ∧
      (∀ f, form.phone = some f → form.value f ≠ [] →
        regexTest phoneRegex (form.value f) = true) ∧
      (∀ f, form.email = some f → form.value f ≠ [] →
        regexTest emailRegex (form.value f) = true)) ∧
    (DistinctParents form → UnnestedParents form → (validateForm form view).2 = false →
      ∀ f, Offending form f →
        (validateForm form view).1.fieldErrors form (form.parentNode f) ≠ []) := by
  refine ⟨validateForm_flag form view, ?_⟩
  intro hdist hun _ f hoff
  have hreqmem : ∀ g, g ∈ form.required → g ∈ validatedFields form := by
    intro g hg
    unfold validatedFields
    simp [hg]
  have hphmem : ∀ g, form.phone = some g → g ∈ validatedFields form := by
    intro g hg
    unfold validatedFields
    simp [hg]
  have hemmem : ∀ g, form.email = some g → g ∈ validatedFields form := by
    intro g hg
    unfold validatedFields
    simp [hg]
  rcases hoff with ⟨hreq, hblank⟩ | ⟨hp, hne, hre⟩ | ⟨he, hne, hre⟩
  · have hfv := hreqmem f hreq
    unfold validateForm
    apply emailCheck_keeps_nonempty form _ f
      (fun g hg => same_or_apart form hdist hun f g hfv (hemmem g hg))
    apply phoneCheck_keeps_nonempty form _ f
      (fun g hg => same_or_apart form hdist hun f g hfv (hphmem g hg))
    exact requiredLoop_marks_blank form f hblank _ _
      (fun g hg => same_or_apart form hdist hun f g hfv (hreqmem g hg)) (Or.inl hreq)
  · have hfv := hphmem f hp
    unfold validateForm
    apply emailCheck_keeps_nonempty form _ f
      (fun g hg => same_or_apart form hdist hun f g hfv (hemmem g hg))
    have hemp : (form.value f).isEmpty = false := by
      cases hv : form.value f with
      | nil => exact absurd hv hne
      | cons x xs => rfl
    unfold phoneCheck
    simp [hp, hemp, hre, showFieldError_at_parent]
  · unfold validateForm
    have hemp : (form.value f).isEmpty = false := by
      cases hv : form.value f with
      | nil => exact absurd hv hne
      | cons x xs => rfl
    unfold emailCheck
    simp [he, hemp, hre, showFieldError_at_parent]

/-- Witness of C6: a page with a blank name, a half-typed phone number and a
malformed email address, each field in a container of its own; all three fields
end up with an error message. -/
theorem validateForm_result_witness :
    DistinctParents (sampleForm " ".toList "+7 (701".toList "abc".toList) ∧
    UnnestedParents (sampleForm " ".toList "+7 (701".toList "abc".toList) ∧
    (validateForm (sampleForm " ".toList "+7 (701".toList "abc".toList) cleanView).2 = false ∧
    (validateForm (sampleForm " ".toList "+7 (701".toList "abc".toList)
      cleanView).1.fieldErrors (sampleForm " ".toList "+7 (701".toList "abc".toList) 10 ≠ [] ∧
    (validateForm (sampleForm " ".toList "+7 (701".toList "abc".toList)
      cleanView).1.fieldErrors (sampleForm " ".toList "+7 (701".toList "abc".toList) 11 ≠ [] ∧
    (validateForm (sampleForm " ".toList "+7 (701".toList "abc".toList)
      cleanView).1.fieldErrors (sampleForm " ".toList "+7 (701".toList "abc".toList) 12 ≠ [] :=
  ⟨by decide, by decide, by decide,
   (validateForm_result (sampleForm " ".toList "+7 (701".toList "abc".toList) cleanView).2
     (by decide) (by decide) (by decide) 0 (Or.inl ⟨by decide, by decide⟩),
   (validateForm_result (sampleForm " ".toList "+7 (701".toList "abc".toList) cleanView).2
     (by decide) (by decide) (by decide) 1 (Or.inr (Or.inl ⟨rfl, by decide, by decide⟩)),
   (validateForm_result (sampleForm " ".toList "+7 (701".toList "abc".toList) cleanView).2
     (by decide) (by decide) (by decide) 2 (Or.inr (Or.inr ⟨rfl, by decide, by decide⟩))⟩

/-- C7 fails on the code: after a submission with the email `abc` the email
container shows the email message; once the optional email field is corrected
to `a@b.com`, `validateForm` returns `true` and the message is still there.
The required name field, in contrast, is cleared on revalidation. -/
theorem validateForm_keeps_stale_email_error :
    (validateForm (sampleForm "Alice".toList "+7 (701) 123-45-67".toList "abc".toList)
      cleanView).1.fieldErrors
      (sampleForm "Alice".toList "+7 (701) 123-45-67".toList "abc".toList) 12 = [msgEmail] ∧
    (validateForm (sampleForm "Alice".toList "+7 (701) 123-45-67".toList "a@b.com".toList)
      (validateForm (sampleForm "Alice".toList "+7 (701) 123-45-67".toList "abc".toList)
        cleanView).1).2 = true ∧
    (validateForm (sampleForm "Alice".toList "+7 (701) 123-45-67".toList "a@b.com".toList)
      (validateForm (sampleForm "Alice".toList "+7 (701) 123-45-67".toList "abc".toList)
        cleanView).1).1.fieldErrors
      (sampleForm "Alice".toList "+7 (701) 123-45-67".toList "a@b.com".toList) 12 =
      [msgEmail] ∧
    (validateForm (sampleForm [] "+7 (701) 123-45-67".toList [])
      cleanView).1.fieldErrors (sampleForm [] "+7 (701) 123-45-67".toList []) 10 =
      [msgRequired] ∧
    (validateForm (sampleForm "Alice".toList "+7 (701) 123-45-67".toList [])
      (validateForm (sampleForm [] "+7 (701) 123-45-67".toList [])
        cleanView).1).1.fieldErrors
      (sampleForm "Alice".toList "+7 (701) 123-45-67".toList []) 10 = [] := by
  refine ⟨by decide, by decide, by decide, by decide, by decide⟩

/-! ## The submit listener: claim C8 -/

/-- C8: when `validateForm` returns `false` the `submit` listener issues no
request, shows no notification and schedules no timer, and on return the pay
button (when the page has one) is enabled and does not carry the class
`loading`. -/
theorem submitHandler_aborts_when_invalid (form : Form) (view : View)
    (h : (validateForm form view).2 = false) :
    (submitHandler form view).requests = view.requests ∧
    (submitHandler form view).notifications = view.notifications ∧
    (submitHandler form view).timers = view.timers ∧
    (form.hasPayButton = true →
      (submitHandler form view).buttonDisabled = false ∧
      "loading".toList ∉ (submitHandler form view).buttonClasses) := by
  have hflag : (validateForm form
      (setLoadingState form { view with defaultPrevented := true } true)).2 = false := by
    rw [validateForm_flag_indep form _ view]
    exact h
  have hsub : submitHandler form view =
      setLoadingState form (validateForm form
        (setLoadingState form { view with defaultPrevented := true } true)).1 false := by
    unfold submitHandler
    simp [hflag]
  rw [hsub]
  obtain ⟨s1, s2, s3⟩ := setLoadingState_frame form (validateForm form
    (setLoadingState form { view with defaultPrevented := true } true)).1 false
  obtain ⟨-, -, v3, v4, v5⟩ := validateForm_frame form
    (setLoadingState form { view with defaultPrevented := true } true)
  obtain ⟨t1, t2, t3⟩ := setLoadingState_frame form { view with defaultPrevented := true } true
  refine ⟨s2.trans (v4.trans t2), s1.trans (v3.trans t1), s3.trans (v5.trans t3), ?_⟩
  intro hb
  unfold setLoadingState
  simp [hb]

/-- Witness of C8: submitting a page whose required fields are empty. -/
theorem submitHandler_aborts_when_invalid_witness :
    (validateForm (sampleForm [] [] []) cleanView).2 = false ∧
    (submitHandler (sampleForm [] [] []) cleanView).requests = [] ∧
    (submitHandler (sampleForm [] [] []) cleanView).buttonDisabled = false :=
  ⟨by decide,
   (submitHandler_aborts_when_invalid (sampleForm [] [] []) cleanView (by decide)).1,
   ((submitHandler_aborts_when_invalid (sampleForm [] [] []) cleanView (by decide)).2.2.2
     rfl).1⟩

/-! ## Mask and validator together: claim C9 -/

/-- C9: the string the `input` listener writes matches the validator's phone
pattern if and only if the digit buffer has at least ten digits. -/
theorem formatter_matches_validator_iff (r : JsString) :
    regexTest phoneRegex (phoneInputHandler r) = true ↔ 10 ≤ (digitBuffer r).length := by
  rw [phoneRegex_iff, phoneInputHandler_eq_maskOf]
  constructor
  · intro h
    have hcount := looseMask_digit_count h
    by_cases h0 : digitBuffer r = []
    · rw [h0] at hcount
      simp [maskOf, replaceNonDigits] at hcount
    · rw [digits_maskOf _ (digitBuffer_digits r) h0, List.length_cons, List.length_take] at hcount
      omega
  · intro h
    exact exactMask_loose (maskOf_exact _ (digitBuffer_digits r) h)

end Payment
